import Mathlib

/-!
Verification of the SuperTrend / ATR subsystem of the `ta` indicator
library.  The Go source is shallowly embedded: float64 values are
modelled as rationals, Go slices preallocated with zeroes become
recursive index functions (index `i` reads only smaller indices, exactly
as the imperative loops do), and fallible entry points return `Except`.
A Go runtime panic from an out-of-range slice access is modelled by the
distinguished error value `TaError.panicIndexOutOfRange`.
-/

/-- One OHLCV bar, mirroring the Go struct `KlineData`
(fields `StartTime, Open, High, Low, Close, Volume`). -/
structure KlineData where
  startTime : Int
  open_ : ℚ
  high : ℚ
  low : ℚ
  close : ℚ
  volume : ℚ
deriving DecidableEq, Repr, Inhabited

/-- Outcomes of a fallible computation: the Go `fmt.Errorf("计算数据不足")`
insufficient-data error, or a runtime panic from an out-of-range slice
index (Go does not return this as an error; it aborts). -/
inductive TaError where
  | insufficientData
  | panicIndexOutOfRange
deriving DecidableEq, Repr

/-- The series as a total index function; out-of-range reads return the
zero bar, but every in-scope access of the embedded loops is in range. -/
def barAt (klineData : List KlineData) : Nat → KlineData :=
  fun i => klineData.getD i default

/-- True range, from the loop in `CalculateATR` (src/atr.go):
`trueRange[0] = 0` (the preallocated zero is never overwritten) and for
`i ≥ 1`, `trueRange[i] = max(high-low, |high-prevClose|, |low-prevClose|)`. -/
def trueRangeAt (k : Nat → KlineData) : Nat → ℚ
  | 0 => 0
  | i + 1 =>
      max ((k (i + 1)).high - (k (i + 1)).low)
        (max |(k (i + 1)).high - (k i).close| |(k (i + 1)).low - (k i).close|)

/-- ATR values, from `CalculateATR` (src/atr.go): indices `< period` keep
the preallocated `0`; `atr[period]` is the seed `(Σ_{j=1..period} tr[j])/period`;
above `period` the Wilder recurrence
`atr[i] = (atr[i-1]*(period-1) + tr[i]) / period` applies. -/
def atrAt (k : Nat → KlineData) (period : Nat) : Nat → ℚ
  | 0 =>
      if 0 < period then 0
      else (Finset.range period).sum (fun j => trueRangeAt k (j + 1)) / (period : ℚ)
  | i + 1 =>
      if i + 1 < period then 0
      else if i + 1 = period then
        (Finset.range period).sum (fun j => trueRangeAt k (j + 1)) / (period : ℚ)
      else
        (atrAt k period i * ((period : ℚ) - 1) + trueRangeAt k (i + 1)) / (period : ℚ)

/-- Result struct `TaATR` (src/atr.go). -/
structure TaATR where
  values : List ℚ
  period : Nat
  trueRange : List ℚ
deriving DecidableEq, Repr, Inhabited

/-- `CalculateATR` (src/atr.go).  The Go guard is `len(klineData) < period`
(strict); when `len(klineData) = period` the guard passes and the seed
loop `for i := 1; i <= period` reads `trueRange[period]`, one past the
end of the slice — a runtime panic, modelled as `panicIndexOutOfRange`. -/
def CalculateATR (klineData : List KlineData) (period : Nat) : Except TaError TaATR :=
  if klineData.length < period then .error .insufficientData
  else if klineData.length ≤ period then .error .panicIndexOutOfRange
  else
    .ok { values := (List.range klineData.length).map (atrAt (barAt klineData) period)
          period := period
          trueRange := (List.range klineData.length).map (trueRangeAt (barAt klineData)) }

/-- The HL2 midpoint `(high[i] + low[i]) / 2`. -/
def hl2At (k : Nat → KlineData) (i : Nat) : ℚ :=
  ((k i).high + (k i).low) / 2

/-- Lower band of `CalculateSuperTrendPivotHl2` (src/superTrendPivotHl2.go).
Warm-up bars (`i < period`) write `hl2 - multiplier*atr[i]`; from `period`
on, the ratchet: take `basicLowerBand` if it exceeds the previous band or
the previous close fell below the previous band, else inherit.  The
`0`-case equals the warm-up write, the branch Go executes whenever
`period ≥ 1` (with `period = 0` the Go loop would read index `-1` and
panic; that configuration is outside every stated property). -/
def hl2LowerBand (k : Nat → KlineData) (period : Nat) (multiplier : ℚ) : Nat → ℚ
  | 0 => hl2At k 0 - multiplier * atrAt k period 0
  | i + 1 =>
      if i + 1 < period then hl2At k (i + 1) - multiplier * atrAt k period (i + 1)
      else
        let basicLowerBand := hl2At k (i + 1) - multiplier * atrAt k period (i + 1)
        if basicLowerBand > hl2LowerBand k period multiplier i ∨
            (k i).close < hl2LowerBand k period multiplier i then
          basicLowerBand
        else hl2LowerBand k period multiplier i

/-- Upper band of `CalculateSuperTrendPivotHl2`, mirrored ratchet. -/
def hl2UpperBand (k : Nat → KlineData) (period : Nat) (multiplier : ℚ) : Nat → ℚ
  | 0 => hl2At k 0 + multiplier * atrAt k period 0
  | i + 1 =>
      if i + 1 < period then hl2At k (i + 1) + multiplier * atrAt k period (i + 1)
      else
        let basicUpperBand := hl2At k (i + 1) + multiplier * atrAt k period (i + 1)
        if basicUpperBand < hl2UpperBand k period multiplier i ∨
            (k i).close > hl2UpperBand k period multiplier i then
          basicUpperBand
        else hl2UpperBand k period multiplier i

/-- Direction of `CalculateSuperTrendPivotHl2`: `0` during warm-up; then
`direction[i-1] <= 0` branches on `close[i] > upperBand[i]`, and
`direction[i-1] > 0` branches on `close[i] < lowerBand[i]`. -/
def hl2Direction (k : Nat → KlineData) (period : Nat) (multiplier : ℚ) : Nat → Int
  | 0 => 0
  | i + 1 =>
      if i + 1 < period then 0
      else if hl2Direction k period multiplier i ≤ 0 then
        (if (k (i + 1)).close > hl2UpperBand k period multiplier (i + 1) then 1 else -1)
      else
        (if (k (i + 1)).close < hl2LowerBand k period multiplier (i + 1) then -1 else 1)

/-- Published values of `CalculateSuperTrendPivotHl2`: `hl2` during
warm-up, then the lower band in an uptrend and the upper band otherwise. -/
def hl2Value (k : Nat → KlineData) (period : Nat) (multiplier : ℚ) (i : Nat) : ℚ :=
  if i < period then hl2At k i
  else if hl2Direction k period multiplier i = 1 then hl2LowerBand k period multiplier i
  else hl2UpperBand k period multiplier i

/-- Result struct `TaSuperTrendPivotHl2` (src/superTrendPivotHl2.go). -/
structure TaSuperTrendPivotHl2 where
  values : List ℚ
  direction : List Int
  upperBand : List ℚ
  lowerBand : List ℚ
  period : Nat
  multiplier : ℚ
deriving DecidableEq, Repr, Inhabited

/-- `CalculateSuperTrendPivotHl2` (src/superTrendPivotHl2.go): guard
`length < period`, then `CalculateATR` with the same period (whose panic
at `length = period` propagates), then the per-bar loop captured by the
index functions above. -/
def CalculateSuperTrendPivotHl2 (klineData : List KlineData) (period : Nat)
    (multiplier : ℚ) : Except TaError TaSuperTrendPivotHl2 :=
  if klineData.length < period then .error .insufficientData
  else
    match CalculateATR klineData period with
    | .error e => .error e
    | .ok _ =>
        let k := barAt klineData
        let length := klineData.length
        .ok { values := (List.range length).map (hl2Value k period multiplier)
              direction := (List.range length).map (hl2Direction k period multiplier)
              upperBand := (List.range length).map (hl2UpperBand k period multiplier)
              lowerBand := (List.range length).map (hl2LowerBand k period multiplier)
              period := period
              multiplier := multiplier }

/-- `FindPivotHighPoint` (src/superTrendPivot.go): `NaN` (here `none`)
unless `index` has a full symmetric window inside the series and its high
is maximal on `[index-period, index+period]`; otherwise the high. -/
def FindPivotHighPoint (k : Nat → KlineData) (len index period : Nat) : Option ℚ :=
  if index < period ∨ len ≤ index + period then none
  else if ∃ j ∈ Finset.Icc (index - period) (index + period), (k index).high < (k j).high then
    none
  else some (k index).high

/-- `FindPivotLowPoint` (src/superTrendPivot.go), mirrored. -/
def FindPivotLowPoint (k : Nat → KlineData) (len index period : Nat) : Option ℚ :=
  if index < period ∨ len ≤ index + period then none
  else if ∃ j ∈ Finset.Icc (index - period) (index + period), (k j).low < (k index).low then
    none
  else some (k index).low

/-- One iteration of the running-center update of
`CalculateSuperTrendPivot` (src/superTrendPivot.go): the state is the pair
`(center, centerCount)`.  A found pivot blends into the center with weight
2:1 (or seeds it when `centerCount = 0`); afterwards, if no pivot has ever
been seen, the center defaults to the current bar's HL midpoint. -/
def pivotCenterStep (k : Nat → KlineData) (len pivotPeriod : Nat)
    (st : ℚ × Nat) (i : Nat) : ℚ × Nat :=
  let pivotHigh := FindPivotHighPoint k len i pivotPeriod
  let pivotLow := FindPivotLowPoint k len i pivotPeriod
  let st1 :=
    if pivotHigh ≠ none ∨ pivotLow ≠ none then
      let newCenter :=
        match pivotHigh, pivotLow with
        | some a, some b => (a + b) / 2
        | some a, none => a
        | none, some b => b
        | none, none => 0
      ((if st.2 = 0 then newCenter else (st.1 * 2 + newCenter) / 3), st.2 + 1)
    else st
  if st1.2 = 0 then (((k i).high + (k i).low) / 2, st1.2) else st1

/-- The `(center, centerCount)` state after the loop body of
`CalculateSuperTrendPivot` has run for bar `i` (the loop starts at
`i = pivotPeriod` from the zero state). -/
def pivotState (k : Nat → KlineData) (len pivotPeriod : Nat) : Nat → ℚ × Nat
  | 0 => if 0 < pivotPeriod then (0, 0) else pivotCenterStep k len pivotPeriod (0, 0) 0
  | i + 1 =>
      if i + 1 < pivotPeriod then (0, 0)
      else pivotCenterStep k len pivotPeriod (pivotState k len pivotPeriod i) (i + 1)

/-- Raw upper band candidate of the pivot variant:
`center + factor*atr[i]`. -/
def pivotUpperBandAt (k : Nat → KlineData) (len pivotPeriod : Nat) (factor : ℚ)
    (atrPeriod : Nat) (i : Nat) : ℚ :=
  (pivotState k len pivotPeriod i).1 + factor * atrAt k atrPeriod i

/-- Raw lower band candidate of the pivot variant:
`center - factor*atr[i]`. -/
def pivotLowerBandAt (k : Nat → KlineData) (len pivotPeriod : Nat) (factor : ℚ)
    (atrPeriod : Nat) (i : Nat) : ℚ :=
  (pivotState k len pivotPeriod i).1 - factor * atrAt k atrPeriod i

/-- `trendUp` array of `CalculateSuperTrendPivot`: zero during the skipped
prefix; ratchets upward with `max` while the previous close stays above
the previous value, else resets to the raw lower band candidate. -/
def trendUpAt (k : Nat → KlineData) (len pivotPeriod : Nat) (factor : ℚ)
    (atrPeriod : Nat) : Nat → ℚ
  | 0 =>
      if 0 < pivotPeriod then 0
      else pivotLowerBandAt k len pivotPeriod factor atrPeriod 0
  | i + 1 =>
      if i + 1 < pivotPeriod then 0
      else if (k i).close > trendUpAt k len pivotPeriod factor atrPeriod i then
        max (pivotLowerBandAt k len pivotPeriod factor atrPeriod (i + 1))
          (trendUpAt k len pivotPeriod factor atrPeriod i)
      else pivotLowerBandAt k len pivotPeriod factor atrPeriod (i + 1)

/-- `trendDown` array of `CalculateSuperTrendPivot`, mirrored with `min`. -/
def trendDownAt (k : Nat → KlineData) (len pivotPeriod : Nat) (factor : ℚ)
    (atrPeriod : Nat) : Nat → ℚ
  | 0 =>
      if 0 < pivotPeriod then 0
      else pivotUpperBandAt k len pivotPeriod factor atrPeriod 0
  | i + 1 =>
      if i + 1 < pivotPeriod then 0
      else if (k i).close < trendDownAt k len pivotPeriod factor atrPeriod i then
        min (pivotUpperBandAt k len pivotPeriod factor atrPeriod (i + 1))
          (trendDownAt k len pivotPeriod factor atrPeriod i)
      else pivotUpperBandAt k len pivotPeriod factor atrPeriod (i + 1)

/-- `trend` array of `CalculateSuperTrendPivot`: `1` above the previous
`trendDown`, `-1` below the previous `trendUp`, else inherited. -/
def pivotTrendAt (k : Nat → KlineData) (len pivotPeriod : Nat) (factor : ℚ)
    (atrPeriod : Nat) : Nat → Int
  | 0 => 0
  | i + 1 =>
      if i + 1 < pivotPeriod then 0
      else if (k (i + 1)).close > trendDownAt k len pivotPeriod factor atrPeriod i then 1
      else if (k (i + 1)).close < trendUpAt k len pivotPeriod factor atrPeriod i then -1
      else pivotTrendAt k len pivotPeriod factor atrPeriod i

/-- Result struct `TaSuperTrendPivot` (src/superTrendPivot.go).  Note the
construction swaps the arrays: `Upper := trendDown`, `Lower := trendUp`. -/
structure TaSuperTrendPivot where
  upper : List ℚ
  lower : List ℚ
  trend : List Int
  pivotPeriod : Nat
  factor : ℚ
  atrPeriod : Nat
deriving DecidableEq, Repr, Inhabited

/-- `CalculateSuperTrendPivot` (src/superTrendPivot.go): guard
`dataLen < pivotPeriod || dataLen < atrPeriod`, then `ATR(atrPeriod)`
(whose panic at `dataLen = atrPeriod` propagates), then the loop. -/
def CalculateSuperTrendPivot (klineData : List KlineData) (pivotPeriod : Nat)
    (factor : ℚ) (atrPeriod : Nat) : Except TaError TaSuperTrendPivot :=
  let dataLen := klineData.length
  if dataLen < pivotPeriod ∨ dataLen < atrPeriod then .error .insufficientData
  else
    match CalculateATR klineData atrPeriod with
    | .error e => .error e
    | .ok _ =>
        let k := barAt klineData
        .ok { upper := (List.range dataLen).map (trendDownAt k dataLen pivotPeriod factor atrPeriod)
              lower := (List.range dataLen).map (trendUpAt k dataLen pivotPeriod factor atrPeriod)
              trend := (List.range dataLen).map (pivotTrendAt k dataLen pivotPeriod factor atrPeriod)
              pivotPeriod := pivotPeriod
              factor := factor
              atrPeriod := atrPeriod }

/-- Convenience constructor for concrete test bars (zero timestamp, zero
open and volume — none of which the SuperTrend subsystem reads). -/
def mkBar (h l c : ℚ) : KlineData :=
  { startTime := 0, open_ := 0, high := h, low := l, close := c, volume := 0 }

/-- Two identical bars `high 2, low 0, close 1`; the shortest series on
which the HL2 variant succeeds with period `1`, and a boundary input for
`CalculateATR` with period `2`. -/
def stDemo : List KlineData := [mkBar 2 0 1, mkBar 2 0 1]

/-- The HL2 result on `stDemo` with period `1`, multiplier `1`
(the call succeeds, so the record below is its payload by computation). -/
def stDemoHl2Res : TaSuperTrendPivotHl2 :=
  (CalculateSuperTrendPivotHl2 stDemo 1 1).toOption.getD default

/-- The ATR result on `stDemo` with period `1`. -/
def stDemoAtrRes : TaATR := (CalculateATR stDemo 1).toOption.getD default

/-- Three bars with strictly increasing closes `1, 2, 3` and constant
high-low spread `2`. -/
def upDemo : List KlineData := [mkBar 2 0 1, mkBar 3 1 2, mkBar 4 2 3]

/-- The HL2 result on `upDemo` with period `1`, multiplier `1`. -/
def upDemoHl2Res : TaSuperTrendPivotHl2 :=
  (CalculateSuperTrendPivotHl2 upDemo 1 1).toOption.getD default

/-- The ATR result on `upDemo` with period `1`. -/
def upDemoAtrRes : TaATR := (CalculateATR upDemo 1).toOption.getD default

/-- A series driving the HL2 engine into a crossed-band state
(`upper[2] = 10 < close[2] = 20 < lower[2] = 29.7` with direction `Up`),
followed by a bar whose close is exactly half of `lower[2]`. -/
def gapDemo : List KlineData :=
  [mkBar 10 10 10, mkBar 30 10 10, mkBar 40 20 20,
   mkBar (1585 / 100) (1385 / 100) (1485 / 100)]

/-- The HL2 result on `gapDemo` with period `1`, multiplier `1/100`. -/
def gapDemoHl2Res : TaSuperTrendPivotHl2 :=
  (CalculateSuperTrendPivotHl2 gapDemo 1 (1 / 100)).toOption.getD default

/-- An ordinary uptrend followed by a gap down to half the lower band. -/
def gapWit : List KlineData := [mkBar 2 0 1, mkBar 3 1 2, mkBar 1 0 (1 / 2)]

/-- The HL2 result on `gapWit` with period `1`, multiplier `1`. -/
def gapWitHl2Res : TaSuperTrendPivotHl2 :=
  (CalculateSuperTrendPivotHl2 gapWit 1 1).toOption.getD default

/-- First series of the lookahead pair: bar `2` keeps `high = 11`, so bar
`1` is a pivot high. -/
def lookA : List KlineData := [mkBar 10 9 (19 / 2), mkBar 12 11 (23 / 2), mkBar 11 10 (21 / 2)]

/-- Second series of the lookahead pair: identical to `lookA` on indices
`0` and `1`, but bar `2` has `high = 13`, destroying the pivot at bar `1`. -/
def lookB : List KlineData := [mkBar 10 9 (19 / 2), mkBar 12 11 (23 / 2), mkBar 13 10 (21 / 2)]

/-- The pivot-variant result on `lookA` with `pivotPeriod 1, factor 1,
atrPeriod 1`. -/
def lookARes : TaSuperTrendPivot :=
  (CalculateSuperTrendPivot lookA 1 1 1).toOption.getD default

/-- The pivot-variant result on `lookB` (same parameters). -/
def lookBRes : TaSuperTrendPivot :=
  (CalculateSuperTrendPivot lookB 1 1 1).toOption.getD default

lemma getD_range_map {α : Type} (f : ℕ → α) {n i : ℕ} (h : i < n) (d : α) :
    ((List.range n).map f).getD i d = f i := by
  simp [List.getD_eq_getElem?_getD, List.getElem?_range h]

lemma CalculateATR_ok {A : List KlineData} {p : Nat} {a : TaATR}
    (h : CalculateATR A p = .ok a) :
    p < A.length ∧
      a.values = (List.range A.length).map (atrAt (barAt A) p) ∧
      a.trueRange = (List.range A.length).map (trueRangeAt (barAt A)) := by
  unfold CalculateATR at h
  split at h
  · exact absurd h (by simp)
  · split at h
    · exact absurd h (by simp)
    · refine ⟨by omega, ?_, ?_⟩ <;> [skip; skip] <;>
        · injection h with h
          rw [← h]

lemma CalculateSuperTrendPivotHl2_ok {A : List KlineData} {p : Nat} {m : ℚ}
    {r : TaSuperTrendPivotHl2} (h : CalculateSuperTrendPivotHl2 A p m = .ok r) :
    p < A.length ∧
      r.values = (List.range A.length).map (hl2Value (barAt A) p m) ∧
      r.direction = (List.range A.length).map (hl2Direction (barAt A) p m) ∧
      r.upperBand = (List.range A.length).map (hl2UpperBand (barAt A) p m) ∧
      r.lowerBand = (List.range A.length).map (hl2LowerBand (barAt A) p m) := by
  unfold CalculateSuperTrendPivotHl2 at h
  split at h
  · exact absurd h (by simp)
  · rcases hatr : CalculateATR A p with e | a
    · rw [hatr] at h; exact absurd h (by simp)
    · rw [hatr] at h
      have hlen := (CalculateATR_ok hatr).1
      refine ⟨hlen, ?_, ?_, ?_, ?_⟩ <;>
        · injection h with h
          rw [← h]

lemma CalculateSuperTrendPivot_ok {A : List KlineData} {pp : Nat} {f : ℚ}
    {ap : Nat} {r : TaSuperTrendPivot} (h : CalculateSuperTrendPivot A pp f ap = .ok r) :
    pp ≤ A.length ∧ ap < A.length ∧
      r.upper = (List.range A.length).map (trendDownAt (barAt A) A.length pp f ap) ∧
      r.lower = (List.range A.length).map (trendUpAt (barAt A) A.length pp f ap) ∧
      r.trend = (List.range A.length).map (pivotTrendAt (barAt A) A.length pp f ap) := by
  unfold CalculateSuperTrendPivot at h
  simp only at h
  split at h
  · exact absurd h (by simp)
  · rcases hatr : CalculateATR A ap with e | a
    · rw [hatr] at h; exact absurd h (by simp)
    · rw [hatr] at h
      have hlen := (CalculateATR_ok hatr).1
      refine ⟨by omega, hlen, ?_, ?_, ?_⟩ <;>
        · injection h with h
          rw [← h]

lemma atrAt_of_lt {k : Nat → KlineData} {p i : Nat} (h : i < p) : atrAt k p i = 0 := by
  cases i with
  | zero => simp [atrAt, h]
  | succ n => simp [atrAt, h]

lemma atrAt_seed (k : Nat → KlineData) (p : Nat) :
    atrAt k p p = (Finset.range p).sum (fun j => trueRangeAt k (j + 1)) / (p : ℚ) := by
  cases p with
  | zero => simp [atrAt]
  | succ n => simp [atrAt]

lemma atrAt_of_gt {k : Nat → KlineData} {p i : Nat} (h : p < i) :
    atrAt k p i = (atrAt k p (i - 1) * ((p : ℚ) - 1) + trueRangeAt k i) / (p : ℚ) := by
  cases i with
  | zero => omega
  | succ n =>
      have h1 : ¬ n + 1 < p := by omega
      have h2 : ¬ n + 1 = p := by omega
      simp [atrAt, h1, h2]

lemma hl2LowerBand_warmup {k : Nat → KlineData} {p : Nat} (m : ℚ) {i : Nat}
    (h : i < p) : hl2LowerBand k p m i = hl2At k i := by
  cases i with
  | zero => rw [hl2LowerBand, atrAt_of_lt h]; ring
  | succ n => rw [hl2LowerBand]; rw [if_pos h, atrAt_of_lt h]; ring

lemma hl2UpperBand_warmup {k : Nat → KlineData} {p : Nat} (m : ℚ) {i : Nat}
    (h : i < p) : hl2UpperBand k p m i = hl2At k i := by
  cases i with
  | zero => rw [hl2UpperBand, atrAt_of_lt h]; ring
  | succ n => rw [hl2UpperBand]; rw [if_pos h, atrAt_of_lt h]; ring

lemma hl2Direction_warmup {k : Nat → KlineData} {p : Nat} (m : ℚ) {i : Nat}
    (h : i < p) : hl2Direction k p m i = 0 := by
  cases i with
  | zero => rfl
  | succ n => rw [hl2Direction]; rw [if_pos h]

lemma hl2LowerBand_step {k : Nat → KlineData} {p : Nat} {m : ℚ} {i : Nat}
    (h : ¬ i + 1 < p) :
    hl2LowerBand k p m (i + 1) =
      if hl2At k (i + 1) - m * atrAt k p (i + 1) > hl2LowerBand k p m i ∨
          (k i).close < hl2LowerBand k p m i then
        hl2At k (i + 1) - m * atrAt k p (i + 1)
      else hl2LowerBand k p m i := by
  rw [hl2LowerBand]
  simp [h]

lemma hl2UpperBand_step {k : Nat → KlineData} {p : Nat} {m : ℚ} {i : Nat}
    (h : ¬ i + 1 < p) :
    hl2UpperBand k p m (i + 1) =
      if hl2At k (i + 1) + m * atrAt k p (i + 1) < hl2UpperBand k p m i ∨
          (k i).close > hl2UpperBand k p m i then
        hl2At k (i + 1) + m * atrAt k p (i + 1)
      else hl2UpperBand k p m i := by
  rw [hl2UpperBand]
  simp [h]

lemma hl2Direction_step {k : Nat → KlineData} {p : Nat} {m : ℚ} {i : Nat}
    (h : ¬ i + 1 < p) :
    hl2Direction k p m (i + 1) =
      if hl2Direction k p m i ≤ 0 then
        (if (k (i + 1)).close > hl2UpperBand k p m (i + 1) then 1 else -1)
      else
        (if (k (i + 1)).close < hl2LowerBand k p m (i + 1) then -1 else 1) := by
  rw [hl2Direction]
  simp [h]

lemma hl2Direction_cases (k : Nat → KlineData) (p : Nat) (m : ℚ) (i : Nat) :
    hl2Direction k p m i = 0 ∨ hl2Direction k p m i = 1 ∨ hl2Direction k p m i = -1 := by
  cases i with
  | zero => left; rfl
  | succ n =>
      rw [hl2Direction]
      split
      · left; rfl
      · split <;> · split <;> simp

lemma hl2Direction_up_imp_period_le {k : Nat → KlineData} {p : Nat} {m : ℚ} {i : Nat}
    (h : hl2Direction k p m i = 1) : p ≤ i := by
  by_contra hlt
  rw [hl2Direction_warmup m (by omega)] at h
  exact absurd h (by simp)

lemma trendUpAt_warmup {k : Nat → KlineData} {len pp : Nat} (f : ℚ) (ap : Nat)
    {i : Nat} (h : i < pp) : trendUpAt k len pp f ap i = 0 := by
  cases i with
  | zero => rw [trendUpAt]; rw [if_pos (by omega)]
  | succ n => rw [trendUpAt]; rw [if_pos h]

lemma trendDownAt_warmup {k : Nat → KlineData} {len pp : Nat} (f : ℚ) (ap : Nat)
    {i : Nat} (h : i < pp) : trendDownAt k len pp f ap i = 0 := by
  cases i with
  | zero => rw [trendDownAt]; rw [if_pos (by omega)]
  | succ n => rw [trendDownAt]; rw [if_pos h]

lemma trendUpAt_step {k : Nat → KlineData} {len pp : Nat} {f : ℚ} {ap : Nat} {i : Nat}
    (h : ¬ i + 1 < pp) :
    trendUpAt k len pp f ap (i + 1) =
      if (k i).close > trendUpAt k len pp f ap i then
        max (pivotLowerBandAt k len pp f ap (i + 1)) (trendUpAt k len pp f ap i)
      else pivotLowerBandAt k len pp f ap (i + 1) := by
  rw [trendUpAt]
  simp [h]

lemma trendDownAt_step {k : Nat → KlineData} {len pp : Nat} {f : ℚ} {ap : Nat} {i : Nat}
    (h : ¬ i + 1 < pp) :
    trendDownAt k len pp f ap (i + 1) =
      if (k i).close < trendDownAt k len pp f ap i then
        min (pivotUpperBandAt k len pp f ap (i + 1)) (trendDownAt k len pp f ap i)
      else pivotUpperBandAt k len pp f ap (i + 1) := by
  rw [trendDownAt]
  simp [h]

/-- C4: the claim says `CalculateATR` fails with `InsufficientData`
exactly when `len(bars) <= period`; in the code the guard is the strict
`len(klineData) < period`, so at the boundary `len = period` the call
passes the guard and the seed loop reads `trueRange[period]` out of
range — a runtime panic, not the `InsufficientData` error.  Evaluated
here at the concrete failing input `len = period = 2`. -/
theorem c4_atr_boundary_panic :
    CalculateATR stDemo 2 = .error .panicIndexOutOfRange ∧
      Except.error TaError.panicIndexOutOfRange ≠
        (Except.error TaError.insufficientData : Except TaError TaATR) := by
  refine ⟨rfl, by simp⟩

/-- C5 counterexample: the claim says every warm-up index `i < period`
holds the sentinel `values[i] = upper[i] = lower[i] = 0.0`; on the
concrete series `stDemo` with period `1` the code instead publishes
`values[0] = upper[0] = lower[0] = hl2[0] = 1 ≠ 0`. -/
theorem c5_counterexample :
    CalculateSuperTrendPivotHl2 stDemo 1 1 = .ok stDemoHl2Res ∧
      stDemoHl2Res.values.getD 0 0 = 1 ∧
      stDemoHl2Res.upperBand.getD 0 0 = 1 ∧
      stDemoHl2Res.lowerBand.getD 0 0 = 1 ∧
      (1 : ℚ) ≠ 0 := by
  refine ⟨rfl, ?_, ?_, ?_, by norm_num⟩ <;>
    · show ((List.range 2).map _).getD 0 0 = 1
      rw [getD_range_map _ (by norm_num)]
      simp [hl2Value, hl2UpperBand, hl2LowerBand, hl2At, atrAt, barAt, stDemo, mkBar]

/-- C5 (amended): indices before the warm-up threshold hold
`direction[i] = Undetermined (0)` as claimed, but the published values
and both bands hold the bar midpoint `hl2[i]` (the ATR factor is `0`
there), not the `0.0` sentinel. -/
theorem c5_warmup_holds_hl2 {A : List KlineData} {p : Nat} {m : ℚ}
    {r : TaSuperTrendPivotHl2} (h : CalculateSuperTrendPivotHl2 A p m = .ok r)
    {i : Nat} (hi : i < p) :
    r.values.getD i 0 = hl2At (barAt A) i ∧
      r.direction.getD i 0 = 0 ∧
      r.upperBand.getD i 0 = hl2At (barAt A) i ∧
      r.lowerBand.getD i 0 = hl2At (barAt A) i := by
  obtain ⟨hlen, hv, hd, hu, hl⟩ := CalculateSuperTrendPivotHl2_ok h
  have hiN : i < A.length := lt_trans hi hlen
  rw [hv, hd, hu, hl, getD_range_map _ hiN, getD_range_map _ hiN,
    getD_range_map _ hiN, getD_range_map _ hiN]
  refine ⟨?_, hl2Direction_warmup m hi, hl2UpperBand_warmup m hi,
    hl2LowerBand_warmup m hi⟩
  unfold hl2Value
  rw [if_pos hi]

/-- Witness for C5 (amended) at `stDemo`, period `1`, index `0`. -/
theorem c5_warmup_holds_hl2_witness :
    stDemoHl2Res.values.getD 0 0 = hl2At (barAt stDemo) 0 ∧
      stDemoHl2Res.direction.getD 0 0 = 0 ∧
      stDemoHl2Res.upperBand.getD 0 0 = hl2At (barAt stDemo) 0 ∧
      stDemoHl2Res.lowerBand.getD 0 0 = hl2At (barAt stDemo) 0 :=
  c5_warmup_holds_hl2 (A := stDemo) (p := 1) (m := 1) (r := stDemoHl2Res)
    rfl (by norm_num)

/-- C8 counterexample: the claim says the first in-scope bar's bands
equal the raw candidates `hl2 ± multiplier*atr` directly, with no
dependence on prior state; on `stDemo` with period `1`, multiplier `1`,
the raw candidates at bar `1` are `1 - 2 = -1` and `1 + 2 = 3`, but the
code ratchets against the warm-up bands and keeps `lower[1] = upper[1] = 1`. -/
theorem c8_counterexample :
    CalculateSuperTrendPivotHl2 stDemo 1 1 = .ok stDemoHl2Res ∧
      CalculateATR stDemo 1 = .ok stDemoAtrRes ∧
      hl2At (barAt stDemo) 1 = 1 ∧
      stDemoAtrRes.values.getD 1 0 = 2 ∧
      stDemoHl2Res.lowerBand.getD 1 0 = 1 ∧
      stDemoHl2Res.upperBand.getD 1 0 = 1 ∧
      (1 : ℚ) ≠ 1 - 1 * 2 ∧
      (1 : ℚ) ≠ 1 + 1 * 2 := by
  refine ⟨rfl, rfl, ?_, ?_, ?_, ?_, by norm_num, by norm_num⟩
  · norm_num [hl2At, barAt, stDemo, mkBar]
  · show ((List.range 2).map _).getD 1 0 = 2
    rw [getD_range_map _ (by norm_num)]
    norm_num [atrAt, trueRangeAt, barAt, stDemo, mkBar]
  · show ((List.range 2).map _).getD 1 0 = 1
    rw [getD_range_map _ (by norm_num)]
    norm_num [hl2LowerBand, hl2At, atrAt, trueRangeAt, barAt, stDemo, mkBar]
  · show ((List.range 2).map _).getD 1 0 = 1
    rw [getD_range_map _ (by norm_num)]
    norm_num [hl2UpperBand, hl2At, atrAt, trueRangeAt, barAt, stDemo, mkBar]

/-- C8 (amended): the first in-scope bar's bands are not seeded directly
from the raw candidates; they pass through the same ratchet as every
later bar, against the prior state the warm-up left behind.  For the HL2
variant that prior state is `upper[p-1] = lower[p-1] = hl2[p-1]`; for the
pivot variant it is the zero-initialised arrays, so the first in-scope
lower band is `max(rawLower, 0)` whenever the previous close is positive
(mirrored for the upper band). -/
theorem c8_first_inscope_bands {A : List KlineData} {p : Nat} {m : ℚ}
    {r : TaSuperTrendPivotHl2} {B : List KlineData} {pp : Nat} {f : ℚ} {ap : Nat}
    {s : TaSuperTrendPivot} (hp : 1 ≤ p) (h : CalculateSuperTrendPivotHl2 A p m = .ok r)
    (hpp : 1 ≤ pp) (hlt : pp < B.length) (h2 : CalculateSuperTrendPivot B pp f ap = .ok s) :
    (r.lowerBand.getD p 0 =
        if hl2At (barAt A) p - m * atrAt (barAt A) p p > hl2At (barAt A) (p - 1) ∨
            (barAt A (p - 1)).close < hl2At (barAt A) (p - 1) then
          hl2At (barAt A) p - m * atrAt (barAt A) p p
        else hl2At (barAt A) (p - 1)) ∧
      (r.upperBand.getD p 0 =
        if hl2At (barAt A) p + m * atrAt (barAt A) p p < hl2At (barAt A) (p - 1) ∨
            (barAt A (p - 1)).close > hl2At (barAt A) (p - 1) then
          hl2At (barAt A) p + m * atrAt (barAt A) p p
        else hl2At (barAt A) (p - 1)) ∧
      (s.lower.getD pp 0 =
        if (barAt B (pp - 1)).close > 0 then
          max (pivotLowerBandAt (barAt B) B.length pp f ap pp) 0
        else pivotLowerBandAt (barAt B) B.length pp f ap pp) ∧
      (s.upper.getD pp 0 =
        if (barAt B (pp - 1)).close < 0 then
          min (pivotUpperBandAt (barAt B) B.length pp f ap pp) 0
        else pivotUpperBandAt (barAt B) B.length pp f ap pp) := by
  obtain ⟨q, rfl⟩ : ∃ q, p = q + 1 := ⟨p - 1, by omega⟩
  obtain ⟨t, rfl⟩ : ∃ t, pp = t + 1 := ⟨pp - 1, by omega⟩
  obtain ⟨hlen, _, _, hu, hl⟩ := CalculateSuperTrendPivotHl2_ok h
  obtain ⟨_, _, hsu, hsl, _⟩ := CalculateSuperTrendPivot_ok h2
  have hq : q + 1 - 1 = q := by omega
  have ht : t + 1 - 1 = t := by omega
  rw [hu, hl, hsu, hsl, getD_range_map _ hlen, getD_range_map _ hlen,
    getD_range_map _ hlt, getD_range_map _ hlt, hq, ht]
  refine ⟨?_, ?_, ?_, ?_⟩
  · rw [hl2LowerBand_step (by omega), hl2LowerBand_warmup m (by omega)]
  · rw [hl2UpperBand_step (by omega), hl2UpperBand_warmup m (by omega)]
  · rw [trendUpAt_step (by omega), trendUpAt_warmup f ap (by omega)]
  · rw [trendDownAt_step (by omega), trendDownAt_warmup f ap (by omega)]

/-- Witness for C8 (amended): the HL2 part at `stDemo` and the pivot part
at `lookA`, both with periods `1`. -/
theorem c8_first_inscope_bands_witness :
    (stDemoHl2Res.lowerBand.getD 1 0 =
        if hl2At (barAt stDemo) 1 - 1 * atrAt (barAt stDemo) 1 1 > hl2At (barAt stDemo) 0 ∨
            (barAt stDemo 0).close < hl2At (barAt stDemo) 0 then
          hl2At (barAt stDemo) 1 - 1 * atrAt (barAt stDemo) 1 1
        else hl2At (barAt stDemo) 0) ∧
      (stDemoHl2Res.upperBand.getD 1 0 =
        if hl2At (barAt stDemo) 1 + 1 * atrAt (barAt stDemo) 1 1 < hl2At (barAt stDemo) 0 ∨
            (barAt stDemo 0).close > hl2At (barAt stDemo) 0 then
          hl2At (barAt stDemo) 1 + 1 * atrAt (barAt stDemo) 1 1
        else hl2At (barAt stDemo) 0) ∧
      (lookARes.lower.getD 1 0 =
        if (barAt lookA 0).close > 0 then
          max (pivotLowerBandAt (barAt lookA) lookA.length 1 1 1 1) 0
        else pivotLowerBandAt (barAt lookA) lookA.length 1 1 1 1) ∧
      (lookARes.upper.getD 1 0 =
        if (barAt lookA 0).close < 0 then
          min (pivotUpperBandAt (barAt lookA) lookA.length 1 1 1 1) 0
        else pivotUpperBandAt (barAt lookA) lookA.length 1 1 1 1) :=
  c8_first_inscope_bands (le_refl 1) rfl (le_refl 1) (by norm_num [lookA]) rfl

/-- C9 counterexample: the claim says that whenever `direction[i-1] = Up`
and `close[i]` drops to half of `lower[i-1] > 0`, the new direction is
`Down`.  On `gapDemo` (period `1`, multiplier `1/100`) bar `2` is in the
`Up` state with `lower[2] = 29.7 > 0` and bar `3` closes at exactly
`14.85 = 29.7/2`, yet the code keeps `direction[3] = 1` (`Up`): the lower
band resets below the gapped close, so the flip test `close < lower`
fails. -/
theorem c9_counterexample :
    CalculateSuperTrendPivotHl2 gapDemo 1 (1 / 100) = .ok gapDemoHl2Res ∧
      gapDemoHl2Res.direction.getD 2 0 = 1 ∧
      gapDemoHl2Res.lowerBand.getD 2 0 = 297 / 10 ∧
      (0 : ℚ) < 297 / 10 ∧
      (barAt gapDemo 3).close = (1 / 2) * (297 / 10) ∧
      gapDemoHl2Res.direction.getD 3 0 = 1 ∧
      (1 : Int) ≠ -1 := by
  refine ⟨rfl, ?_, ?_, by norm_num, by norm_num [barAt, gapDemo, mkBar], ?_, by norm_num⟩
  · show ((List.range 4).map _).getD 2 0 = 1
    rw [getD_range_map _ (by norm_num)]
    norm_num [hl2Direction, hl2UpperBand, hl2LowerBand, hl2At, atrAt, trueRangeAt,
      barAt, gapDemo, mkBar]
  · show ((List.range 4).map _).getD 2 0 = 297 / 10
    rw [getD_range_map _ (by norm_num)]
    norm_num [hl2LowerBand, hl2At, atrAt, trueRangeAt, barAt, gapDemo, mkBar]
  · show ((List.range 4).map _).getD 3 0 = 1
    rw [getD_range_map _ (by norm_num)]
    norm_num [hl2Direction, hl2UpperBand, hl2LowerBand, hl2At, atrAt, trueRangeAt,
      barAt, gapDemo, mkBar]

/-- C9 (amended): the gap scenario forces `direction[i] = Down` under the
additional (normal-uptrend) premise `close[i-1] >= lower[i-1]`; and the
upper band is not unconditionally re-seeded from the raw candidate — when
the raw candidate is at least `upper[i-1]` and the previous close did not
exceed `upper[i-1]`, the band is inherited unchanged. -/
theorem c9_gap_down_flip {A : List KlineData} {p : Nat} {m : ℚ}
    {r : TaSuperTrendPivotHl2} {i : Nat}
    (h : CalculateSuperTrendPivotHl2 A p m = .ok r)
    (hi : i + 1 < A.length)
    (hdir : r.direction.getD i 0 = 1)
    (hlow : 0 < r.lowerBand.getD i 0)
    (hprev : r.lowerBand.getD i 0 ≤ (barAt A i).close)
    (hgap : (barAt A (i + 1)).close = (1 / 2) * r.lowerBand.getD i 0) :
    r.direction.getD (i + 1) 0 = -1 ∧
      (r.upperBand.getD i 0 ≤ hl2At (barAt A) (i + 1) + m * atrAt (barAt A) p (i + 1) →
        (barAt A i).close ≤ r.upperBand.getD i 0 →
        r.upperBand.getD (i + 1) 0 = r.upperBand.getD i 0) := by
  obtain ⟨hlen, _, hd, hu, hl⟩ := CalculateSuperTrendPivotHl2_ok h
  have hiA : i < A.length := by omega
  rw [hd] at hdir
  rw [hl] at hlow hprev hgap
  rw [hd, hu]
  rw [getD_range_map _ hiA] at hdir hprev hlow hgap
  simp only [getD_range_map _ hi, getD_range_map _ hiA]
  set k := barAt A
  have hpi : p ≤ i := hl2Direction_up_imp_period_le hdir
  have hnp : ¬ i + 1 < p := by omega
  have hgap2 : (k (i + 1)).close < hl2LowerBand k p m i := by
    rw [hgap]; linarith
  have hlow1 : (k (i + 1)).close < hl2LowerBand k p m (i + 1) := by
    rw [hl2LowerBand_step hnp]
    split
    · rename_i hcond
      rcases hcond with hc | hc
      · linarith
      · linarith
    · exact hgap2
  constructor
  · rw [hl2Direction_step hnp, hdir]
    rw [if_neg (by norm_num : ¬ (1 : Int) ≤ 0), if_pos hlow1]
  · intro h1 h2
    rw [hl2UpperBand_step hnp]
    rw [if_neg]
    push_neg
    exact ⟨h1, h2⟩

/-- Witness for C9 (amended) on `gapWit`: an ordinary uptrend bar
(`direction[1] = Up`, `close[1] = 2 ≥ lower[1] = 1 > 0`) followed by a
close at exactly half the lower band flips the direction to `Down`. -/
theorem c9_gap_down_flip_witness :
    gapWitHl2Res.direction.getD 2 0 = -1 ∧
      (gapWitHl2Res.upperBand.getD 1 0 ≤
          hl2At (barAt gapWit) 2 + 1 * atrAt (barAt gapWit) 1 2 →
        (barAt gapWit 1).close ≤ gapWitHl2Res.upperBand.getD 1 0 →
        gapWitHl2Res.upperBand.getD 2 0 = gapWitHl2Res.upperBand.getD 1 0) :=
  c9_gap_down_flip (A := gapWit) (p := 1) (m := 1) (r := gapWitHl2Res) (i := 1)
    rfl (by norm_num [gapWit])
    (by show ((List.range 3).map _).getD 1 0 = 1
        rw [getD_range_map _ (by norm_num)]
        norm_num [hl2Direction, hl2UpperBand, hl2LowerBand, hl2At, atrAt, trueRangeAt,
          barAt, gapWit, mkBar])
    (by show (0 : ℚ) < ((List.range 3).map _).getD 1 0
        rw [getD_range_map _ (by norm_num)]
        norm_num [hl2LowerBand, hl2At, atrAt, trueRangeAt, barAt, gapWit, mkBar])
    (by show ((List.range 3).map _).getD 1 0 ≤ _
        rw [getD_range_map _ (by norm_num)]
        norm_num [hl2LowerBand, hl2At, atrAt, trueRangeAt, barAt, gapWit, mkBar])
    (by show _ = (1 / 2 : ℚ) * ((List.range 3).map _).getD 1 0
        rw [getD_range_map _ (by norm_num)]
        norm_num [hl2LowerBand, hl2At, atrAt, trueRangeAt, barAt, gapWit, mkBar])

/-- C1: for every bar `i ≥ period` the HL2 variant's bands follow the
ratchet rule: `lower[i] = rawLower` if `rawLower > lower[i-1]` or
`close[i-1] < lower[i-1]`, else `lower[i-1]`; mirrored for the upper
band, with `rawLower/rawUpper = hl2[i] ∓/± multiplier*atr[i]` taken from
the ATR result of the same call. -/
theorem c1_hl2_band_ratchet {A : List KlineData} {p : Nat} {m : ℚ} {a : TaATR}
    {r : TaSuperTrendPivotHl2} {i : Nat}
    (ha : CalculateATR A p = .ok a) (h : CalculateSuperTrendPivotHl2 A p m = .ok r)
    (hpi : p ≤ i) (hp : 1 ≤ p) (hi : i < A.length) :
    r.lowerBand.getD i 0 =
        (if hl2At (barAt A) i - m * a.values.getD i 0 > r.lowerBand.getD (i - 1) 0 ∨
            (barAt A (i - 1)).close < r.lowerBand.getD (i - 1) 0 then
          hl2At (barAt A) i - m * a.values.getD i 0
        else r.lowerBand.getD (i - 1) 0) ∧
      r.upperBand.getD i 0 =
        (if hl2At (barAt A) i + m * a.values.getD i 0 < r.upperBand.getD (i - 1) 0 ∨
            (barAt A (i - 1)).close > r.upperBand.getD (i - 1) 0 then
          hl2At (barAt A) i + m * a.values.getD i 0
        else r.upperBand.getD (i - 1) 0) := by
  obtain ⟨q, rfl⟩ : ∃ q, i = q + 1 := ⟨i - 1, by omega⟩
  obtain ⟨_, hav, _⟩ := CalculateATR_ok ha
  obtain ⟨hlen, _, _, hu, hl⟩ := CalculateSuperTrendPivotHl2_ok h
  have hqA : q < A.length := by omega
  have hq : q + 1 - 1 = q := by omega
  rw [hav, hu, hl, hq]
  simp only [getD_range_map _ hi, getD_range_map _ hqA]
  rw [hl2LowerBand_step (by omega), hl2UpperBand_step (by omega)]
  exact ⟨rfl, rfl⟩

/-- Witness for C1 at `upDemo`, period `1`, index `1`. -/
theorem c1_hl2_band_ratchet_witness :
    upDemoHl2Res.lowerBand.getD 1 0 =
        (if hl2At (barAt upDemo) 1 - 1 * upDemoAtrRes.values.getD 1 0 >
              upDemoHl2Res.lowerBand.getD 0 0 ∨
            (barAt upDemo 0).close < upDemoHl2Res.lowerBand.getD 0 0 then
          hl2At (barAt upDemo) 1 - 1 * upDemoAtrRes.values.getD 1 0
        else upDemoHl2Res.lowerBand.getD 0 0) ∧
      upDemoHl2Res.upperBand.getD 1 0 =
        (if hl2At (barAt upDemo) 1 + 1 * upDemoAtrRes.values.getD 1 0 <
              upDemoHl2Res.upperBand.getD 0 0 ∨
            (barAt upDemo 0).close > upDemoHl2Res.upperBand.getD 0 0 then
          hl2At (barAt upDemo) 1 + 1 * upDemoAtrRes.values.getD 1 0
        else upDemoHl2Res.upperBand.getD 0 0) :=
  c1_hl2_band_ratchet (A := upDemo) (p := 1) (m := 1) (a := upDemoAtrRes)
    (r := upDemoHl2Res) (i := 1) rfl rfl (le_refl 1) (le_refl 1) (by norm_num [upDemo])

/-- C2: for every bar `i > period`, if the previous direction is `Up`
(`1`) the new direction is `Down` (`-1`) exactly when
`close[i] < lower[i]` (strict — equality does not flip), else it stays
`Up`; if the previous direction is not `Up`, the new direction is `Up`
exactly when `close[i] > upper[i]`, else `Down`. -/
theorem c2_direction_flip {A : List KlineData} {p : Nat} {m : ℚ}
    {r : TaSuperTrendPivotHl2} {i : Nat}
    (h : CalculateSuperTrendPivotHl2 A p m = .ok r)
    (hpi : p < i) (hi : i < A.length) :
    r.direction.getD i 0 =
      if r.direction.getD (i - 1) 0 = 1 then
        (if (barAt A i).close < r.lowerBand.getD i 0 then -1 else 1)
      else
        (if (barAt A i).close > r.upperBand.getD i 0 then 1 else -1) := by
  obtain ⟨q, rfl⟩ : ∃ q, i = q + 1 := ⟨i - 1, by omega⟩
  obtain ⟨hlen, _, hd, hu, hl⟩ := CalculateSuperTrendPivotHl2_ok h
  have hqA : q < A.length := by omega
  have hq : q + 1 - 1 = q := by omega
  rw [hd, hu, hl, hq]
  simp only [getD_range_map _ hi, getD_range_map _ hqA]
  rw [hl2Direction_step (by omega)]
  rcases hl2Direction_cases (barAt A) p m q with h0 | h1 | hm1
  · rw [h0]
    norm_num
  · rw [h1]
    norm_num
  · rw [hm1]
    norm_num

/-- Witness for C2 at `upDemo`, period `1`, index `2`. -/
theorem c2_direction_flip_witness :
    upDemoHl2Res.direction.getD 2 0 =
      if upDemoHl2Res.direction.getD 1 0 = 1 then
        (if (barAt upDemo 2).close < upDemoHl2Res.lowerBand.getD 2 0 then -1 else 1)
      else
        (if (barAt upDemo 2).close > upDemoHl2Res.upperBand.getD 2 0 then 1 else -1) :=
  c2_direction_flip (A := upDemo) (p := 1) (m := 1) (r := upDemoHl2Res) (i := 2)
    rfl (by norm_num) (by norm_num [upDemo])

/-- C6: in a successful `CalculateATR` call with `period ≥ 1`:
`tr[0] = 0`; for `1 ≤ i < len` the true range is
`max(high[i]-low[i], |high[i]-close[i-1]|, |low[i]-close[i-1]|)`; the
seed `atr[period]` is the mean of `tr[1..period]`; and for
`period < j < len` the Wilder recurrence
`atr[j] = (atr[j-1]*(period-1) + tr[j]) / period` holds. -/
theorem c6_atr_recurrence {A : List KlineData} {p : Nat} {a : TaATR} {i j : Nat}
    (hp : 1 ≤ p) (ha : CalculateATR A p = .ok a)
    (hi1 : 1 ≤ i) (hiL : i < A.length) (hpj : p < j) (hjL : j < A.length) :
    a.trueRange.getD 0 0 = 0 ∧
      a.trueRange.getD i 0 =
        max ((barAt A i).high - (barAt A i).low)
          (max |(barAt A i).high - (barAt A (i - 1)).close|
            |(barAt A i).low - (barAt A (i - 1)).close|) ∧
      a.values.getD p 0 =
        (Finset.range p).sum (fun t => a.trueRange.getD (t + 1) 0) / (p : ℚ) ∧
      a.values.getD j 0 =
        (a.values.getD (j - 1) 0 * ((p : ℚ) - 1) + a.trueRange.getD j 0) / (p : ℚ) := by
  obtain ⟨hlen, hav, hatr⟩ := CalculateATR_ok ha
  refine ⟨?_, ?_, ?_, ?_⟩
  · rw [hatr, getD_range_map _ (by omega)]
    rfl
  · obtain ⟨q, rfl⟩ : ∃ q, i = q + 1 := ⟨i - 1, by omega⟩
    rw [hatr, getD_range_map _ hiL]
    rfl
  · rw [hav, hatr, getD_range_map _ hlen, atrAt_seed]
    congr 1
    refine Finset.sum_congr rfl (fun t htp => ?_)
    rw [getD_range_map _ (by have := Finset.mem_range.mp htp; omega)]
  · obtain ⟨q, rfl⟩ : ∃ q, j = q + 1 := ⟨j - 1, by omega⟩
    rw [hav, hatr, getD_range_map _ hjL, getD_range_map _ (by omega : q + 1 - 1 < A.length),
      getD_range_map _ hjL, atrAt_of_gt hpj]

/-- Witness for C6 at `upDemo`, period `1`, indices `i = 1`, `j = 2`. -/
theorem c6_atr_recurrence_witness :
    upDemoAtrRes.trueRange.getD 0 0 = 0 ∧
      upDemoAtrRes.trueRange.getD 1 0 =
        max ((barAt upDemo 1).high - (barAt upDemo 1).low)
          (max |(barAt upDemo 1).high - (barAt upDemo 0).close|
            |(barAt upDemo 1).low - (barAt upDemo 0).close|) ∧
      upDemoAtrRes.values.getD 1 0 =
        (Finset.range 1).sum (fun t => upDemoAtrRes.trueRange.getD (t + 1) 0) / (1 : ℚ) ∧
      upDemoAtrRes.values.getD 2 0 =
        (upDemoAtrRes.values.getD 1 0 * ((1 : ℚ) - 1) + upDemoAtrRes.trueRange.getD 2 0) /
          (1 : ℚ) :=
  c6_atr_recurrence (A := upDemo) (p := 1) (a := upDemoAtrRes) (i := 1) (j := 2)
    (le_refl 1) rfl (le_refl 1) (by norm_num [upDemo]) (by norm_num) (by norm_num [upDemo])

/-- C10: in a successful `CalculateATR` call with `period ≥ 1`, the whole
warm-up prefix of the ATR values is `0` (not only index `0`), and
`trueRange[0] = 0`; consequently the HL2 variant's warm-up bands collapse
to the bar midpoint `hl2[i]` exactly. -/
theorem c10_atr_warmup_zeros {A : List KlineData} {p : Nat} {m : ℚ} {a : TaATR}
    {r : TaSuperTrendPivotHl2} {i : Nat}
    (hp : 1 ≤ p) (ha : CalculateATR A p = .ok a)
    (h : CalculateSuperTrendPivotHl2 A p m = .ok r) (hi : i < p) :
    a.values.getD i 0 = 0 ∧
      a.trueRange.getD 0 0 = 0 ∧
      r.upperBand.getD i 0 = hl2At (barAt A) i ∧
      r.lowerBand.getD i 0 = hl2At (barAt A) i := by
  obtain ⟨hlen, hav, hatr⟩ := CalculateATR_ok ha
  obtain ⟨_, _, _, hu, hl⟩ := CalculateSuperTrendPivotHl2_ok h
  have hiA : i < A.length := by omega
  refine ⟨?_, ?_, ?_, ?_⟩
  · rw [hav, getD_range_map _ hiA, atrAt_of_lt hi]
  · rw [hatr, getD_range_map _ (by omega)]
    rfl
  · rw [hu, getD_range_map _ hiA, hl2UpperBand_warmup m hi]
  · rw [hl, getD_range_map _ hiA, hl2LowerBand_warmup m hi]

/-- Witness for C10 at `upDemo`, period `1`, index `0`. -/
theorem c10_atr_warmup_zeros_witness :
    upDemoAtrRes.values.getD 0 0 = 0 ∧
      upDemoAtrRes.trueRange.getD 0 0 = 0 ∧
      upDemoHl2Res.upperBand.getD 0 0 = hl2At (barAt upDemo) 0 ∧
      upDemoHl2Res.lowerBand.getD 0 0 = hl2At (barAt upDemo) 0 :=
  c10_atr_warmup_zeros (A := upDemo) (p := 1) (m := 1) (a := upDemoAtrRes)
    (r := upDemoHl2Res) (i := 0) (le_refl 1) rfl rfl (by norm_num)

lemma hl2At_of_spread {k : Nat → KlineData} {s : ℚ} {n : Nat}
    (hh : (k n).high = (k n).close + s / 2)
    (hlo : (k n).low = (k n).close - s / 2) : hl2At k n = (k n).close := by
  rw [hl2At, hh, hlo]
  ring

lemma trueRangeAt_ge_spread {k : Nat → KlineData} {s : ℚ} {n : Nat}
    (hh : (k (n + 1)).high = (k (n + 1)).close + s / 2)
    (hlo : (k (n + 1)).low = (k (n + 1)).close - s / 2) :
    s ≤ trueRangeAt k (n + 1) := by
  have hd : (k (n + 1)).high - (k (n + 1)).low = s := by rw [hh, hlo]; ring
  calc s = (k (n + 1)).high - (k (n + 1)).low := hd.symm
    _ ≤ trueRangeAt k (n + 1) := by rw [trueRangeAt]; exact le_max_left _ _

lemma atrAt_ge_spread {A : List KlineData} {p : Nat} {s : ℚ}
    (hp : 1 ≤ p) (hs : 0 < s)
    (hspread : ∀ n, n < A.length →
      (barAt A n).high = (barAt A n).close + s / 2 ∧
        (barAt A n).low = (barAt A n).close - s / 2) :
    ∀ n, p ≤ n → n < A.length → s ≤ atrAt (barAt A) p n := by
  intro n hpn
  induction n, hpn using Nat.le_induction with
  | base =>
      intro hlen
      rw [atrAt_seed]
      have hsum : (p : ℚ) * s ≤ (Finset.range p).sum (fun j => trueRangeAt (barAt A) (j + 1)) := by
        have h1 : (Finset.range p).sum (fun _ => s) ≤
            (Finset.range p).sum (fun j => trueRangeAt (barAt A) (j + 1)) := by
          refine Finset.sum_le_sum (fun j hj => ?_)
          have hjlen : j + 1 < A.length := by
            have := Finset.mem_range.mp hj
            omega
          exact trueRangeAt_ge_spread (hspread _ hjlen).1 (hspread _ hjlen).2
        simpa using h1
      rw [le_div_iff₀ (by positivity : (0 : ℚ) < (p : ℚ))]
      linarith
  | succ n hpn ih =>
      intro hlen
      have hn : n < A.length := by omega
      have hatr : s ≤ atrAt (barAt A) p n := ih hn
      rw [atrAt_of_gt (by omega)]
      have htr : s ≤ trueRangeAt (barAt A) (n + 1) :=
        trueRangeAt_ge_spread (hspread _ hlen).1 (hspread _ hlen).2
      have hmul : s * ((p : ℚ) - 1) ≤ atrAt (barAt A) p n * ((p : ℚ) - 1) := by
        refine mul_le_mul_of_nonneg_right hatr ?_
        have : (1 : ℚ) ≤ (p : ℚ) := by exact_mod_cast hp
        linarith
      rw [Nat.add_sub_cancel, le_div_iff₀ (by positivity : (0 : ℚ) < (p : ℚ))]
      nlinarith

lemma hl2LowerBand_le_close {A : List KlineData} {p : Nat} {m s : ℚ}
    (hp : 1 ≤ p) (hm : 0 < m) (hs : 0 < s)
    (hspread : ∀ n, n < A.length →
      (barAt A n).high = (barAt A n).close + s / 2 ∧
        (barAt A n).low = (barAt A n).close - s / 2)
    (hinc : ∀ n, n + 1 < A.length → (barAt A n).close < (barAt A (n + 1)).close) :
    ∀ n, n < A.length → hl2LowerBand (barAt A) p m n ≤ (barAt A n).close := by
  intro n
  induction n with
  | zero =>
      intro h0
      rw [hl2LowerBand_warmup m (by omega : 0 < p)]
      exact le_of_eq (hl2At_of_spread (hspread 0 h0).1 (hspread 0 h0).2)
  | succ q ih =>
      intro hq1
      by_cases hqp : q + 1 < p
      · rw [hl2LowerBand_warmup m hqp]
        exact le_of_eq (hl2At_of_spread (hspread _ hq1).1 (hspread _ hq1).2)
      · rw [hl2LowerBand_step hqp]
        have hq : q < A.length := by omega
        have hcl : (barAt A q).close < (barAt A (q + 1)).close := hinc q hq1
        have hbasic : hl2At (barAt A) (q + 1) - m * atrAt (barAt A) p (q + 1) ≤
            (barAt A (q + 1)).close := by
          have h1 : hl2At (barAt A) (q + 1) = (barAt A (q + 1)).close :=
            hl2At_of_spread (hspread _ hq1).1 (hspread _ hq1).2
          have h2 : s ≤ atrAt (barAt A) p (q + 1) :=
            atrAt_ge_spread hp hs hspread (q + 1) (by omega) hq1
          nlinarith
        split
        · exact hbasic
        · exact le_trans (ih hq) (le_of_lt hcl)

lemma hl2Direction_stays_up {A : List KlineData} {p : Nat} {m s : ℚ} {j : Nat}
    (hp : 1 ≤ p) (hm : 0 < m) (hs : 0 < s)
    (hspread : ∀ n, n < A.length →
      (barAt A n).high = (barAt A n).close + s / 2 ∧
        (barAt A n).low = (barAt A n).close - s / 2)
    (hinc : ∀ n, n + 1 < A.length → (barAt A n).close < (barAt A (n + 1)).close)
    (hj : hl2Direction (barAt A) p m j = 1) :
    ∀ i, j ≤ i → i < A.length → hl2Direction (barAt A) p m i = 1 := by
  intro i hji
  induction i, hji using Nat.le_induction with
  | base => intro _; exact hj
  | succ i hji ih =>
      intro hi1
      have hdi : hl2Direction (barAt A) p m i = 1 := ih (by omega)
      have hpi : p ≤ i := hl2Direction_up_imp_period_le hdi
      rw [hl2Direction_step (by omega), hdi]
      rw [if_neg (by norm_num : ¬ (1 : Int) ≤ 0)]
      rw [if_neg (not_lt.mpr (hl2LowerBand_le_close hp hm hs hspread hinc (i + 1) hi1))]

/-- C7: on a synthetic series with strictly increasing closes, constant
high-low spread `s > 0` (`high = close + s/2`, `low = close - s/2`) and
constant volume, with any multiplier `> 0`: once the HL2 direction is
`Up` at some index `j`, it stays `Up` at every later in-range index. -/
theorem c7_monotone_never_flips {A : List KlineData} {p : Nat} {m s v : ℚ}
    {r : TaSuperTrendPivotHl2} {j i : Nat}
    (h : CalculateSuperTrendPivotHl2 A p m = .ok r)
    (hp : 1 ≤ p) (hm : 0 < m) (hs : 0 < s)
    (hspread : ∀ n, n < A.length →
      (barAt A n).high = (barAt A n).close + s / 2 ∧
        (barAt A n).low = (barAt A n).close - s / 2)
    (hinc : ∀ n, n + 1 < A.length → (barAt A n).close < (barAt A (n + 1)).close)
    (hvol : ∀ n, n < A.length → (barAt A n).volume = v)
    (hji : j ≤ i) (hi : i < A.length)
    (hup : r.direction.getD j 0 = 1) :
    r.direction.getD i 0 = 1 := by
  obtain ⟨hlen, _, hd, _, _⟩ := CalculateSuperTrendPivotHl2_ok h
  have hjA : j < A.length := by omega
  rw [hd, getD_range_map _ hjA] at hup
  rw [hd, getD_range_map _ hi]
  exact hl2Direction_stays_up hp hm hs hspread hinc hup i hji hi

/-- Witness for C7 at `upDemo` (closes `1, 2, 3`, spread `2`), period
`1`, multiplier `1`, from `j = 1` to `i = 2`. -/
theorem c7_monotone_never_flips_witness :
    upDemoHl2Res.direction.getD 2 0 = 1 :=
  c7_monotone_never_flips (A := upDemo) (p := 1) (m := 1) (s := 2) (v := 0)
    (r := upDemoHl2Res) (j := 1) (i := 2) rfl (le_refl 1) (by norm_num) (by norm_num)
    (by intro n hn
        have h3 : n < 3 := by simpa [upDemo] using hn
        interval_cases n <;> norm_num [barAt, upDemo, mkBar])
    (by intro n hn
        have h3 : n + 1 < 3 := by simpa [upDemo] using hn
        have h2 : n < 2 := by omega
        interval_cases n <;> norm_num [barAt, upDemo, mkBar])
    (by intro n hn
        have h3 : n < 3 := by simpa [upDemo] using hn
        interval_cases n <;> norm_num [barAt, upDemo, mkBar])
    (by norm_num) (by norm_num [upDemo])
    (by show ((List.range 3).map _).getD 1 0 = 1
        rw [getD_range_map _ (by norm_num)]
        norm_num [hl2Direction, hl2UpperBand, hl2LowerBand, hl2At, atrAt, trueRangeAt,
          barAt, upDemo, mkBar])

lemma trueRangeAt_causal {k1 k2 : Nat → KlineData} {i : Nat}
    (hk : ∀ t, t ≤ i → k1 t = k2 t) : trueRangeAt k1 i = trueRangeAt k2 i := by
  cases i with
  | zero => rfl
  | succ n =>
      rw [trueRangeAt, trueRangeAt, hk (n + 1) (le_refl _), hk n (by omega)]

lemma atrAt_causal {k1 k2 : Nat → KlineData} {p i : Nat}
    (hk : ∀ t, t ≤ i → k1 t = k2 t) : atrAt k1 p i = atrAt k2 p i := by
  induction i with
  | zero =>
      rw [atrAt, atrAt]
      split
      · rfl
      · rename_i hpz
        have hp0 : p = 0 := by omega
        subst hp0
        rfl
  | succ n ih =>
      have hk' : ∀ t, t ≤ n → k1 t = k2 t := fun t ht => hk t (by omega)
      rw [atrAt, atrAt]
      split
      · rfl
      · split
        · rename_i hnp
          refine congrArg (fun x => x / (p : ℚ)) ?_
          refine Finset.sum_congr rfl (fun j hj => ?_)
          have hjp : j + 1 ≤ n + 1 := by
            have := Finset.mem_range.mp hj
            omega
          exact trueRangeAt_causal (fun t ht => hk t (le_trans ht hjp))
        · rw [ih hk', trueRangeAt_causal hk]

lemma hl2At_causal {k1 k2 : Nat → KlineData} {i : Nat}
    (h : k1 i = k2 i) : hl2At k1 i = hl2At k2 i := by
  rw [hl2At, hl2At, h]

lemma hl2LowerBand_causal {k1 k2 : Nat → KlineData} {p : Nat} {m : ℚ} {i : Nat}
    (hk : ∀ t, t ≤ i → k1 t = k2 t) :
    hl2LowerBand k1 p m i = hl2LowerBand k2 p m i := by
  induction i with
  | zero =>
      rw [hl2LowerBand, hl2LowerBand, hl2At_causal (hk 0 (le_refl _)),
        atrAt_causal (fun t ht => hk t ht)]
  | succ n ih =>
      have hk' : ∀ t, t ≤ n → k1 t = k2 t := fun t ht => hk t (by omega)
      rw [hl2LowerBand, hl2LowerBand, hl2At_causal (hk (n + 1) (le_refl _)),
        atrAt_causal hk, ih hk', hk n (by omega)]

lemma hl2UpperBand_causal {k1 k2 : Nat → KlineData} {p : Nat} {m : ℚ} {i : Nat}
    (hk : ∀ t, t ≤ i → k1 t = k2 t) :
    hl2UpperBand k1 p m i = hl2UpperBand k2 p m i := by
  induction i with
  | zero =>
      rw [hl2UpperBand, hl2UpperBand, hl2At_causal (hk 0 (le_refl _)),
        atrAt_causal (fun t ht => hk t ht)]
  | succ n ih =>
      have hk' : ∀ t, t ≤ n → k1 t = k2 t := fun t ht => hk t (by omega)
      rw [hl2UpperBand, hl2UpperBand, hl2At_causal (hk (n + 1) (le_refl _)),
        atrAt_causal hk, ih hk', hk n (by omega)]

lemma hl2Direction_causal {k1 k2 : Nat → KlineData} {p : Nat} {m : ℚ} {i : Nat}
    (hk : ∀ t, t ≤ i → k1 t = k2 t) :
    hl2Direction k1 p m i = hl2Direction k2 p m i := by
  induction i with
  | zero => rfl
  | succ n ih =>
      have hk' : ∀ t, t ≤ n → k1 t = k2 t := fun t ht => hk t (by omega)
      rw [hl2Direction, hl2Direction, hl2UpperBand_causal hk, hl2LowerBand_causal hk,
        ih hk', hk (n + 1) (le_refl _)]

lemma hl2Value_causal {k1 k2 : Nat → KlineData} {p : Nat} {m : ℚ} {i : Nat}
    (hk : ∀ t, t ≤ i → k1 t = k2 t) :
    hl2Value k1 p m i = hl2Value k2 p m i := by
  rw [hl2Value, hl2Value, hl2At_causal (hk i (le_refl _)), hl2Direction_causal hk,
    hl2LowerBand_causal hk, hl2UpperBand_causal hk]

lemma FindPivotHighPoint_causal {k1 k2 : Nat → KlineData} {len index p : Nat}
    (hk : ∀ t, t ≤ index + p → k1 t = k2 t) :
    FindPivotHighPoint k1 len index p = FindPivotHighPoint k2 len index p := by
  have hidx : k1 index = k2 index := hk index (by omega)
  have hiff : (∃ j ∈ Finset.Icc (index - p) (index + p), (k1 index).high < (k1 j).high) ↔
      (∃ j ∈ Finset.Icc (index - p) (index + p), (k2 index).high < (k2 j).high) := by
    constructor
    · rintro ⟨j, hj, hlt⟩
      refine ⟨j, hj, ?_⟩
      rw [← hidx, ← hk j (Finset.mem_Icc.mp hj).2]
      exact hlt
    · rintro ⟨j, hj, hlt⟩
      refine ⟨j, hj, ?_⟩
      rw [hidx, hk j (Finset.mem_Icc.mp hj).2]
      exact hlt
  rw [FindPivotHighPoint, FindPivotHighPoint]
  refine if_congr Iff.rfl rfl ?_
  exact if_congr hiff rfl (by rw [hidx])

lemma FindPivotLowPoint_causal {k1 k2 : Nat → KlineData} {len index p : Nat}
    (hk : ∀ t, t ≤ index + p → k1 t = k2 t) :
    FindPivotLowPoint k1 len index p = FindPivotLowPoint k2 len index p := by
  have hidx : k1 index = k2 index := hk index (by omega)
  have hiff : (∃ j ∈ Finset.Icc (index - p) (index + p), (k1 j).low < (k1 index).low) ↔
      (∃ j ∈ Finset.Icc (index - p) (index + p), (k2 j).low < (k2 index).low) := by
    constructor
    · rintro ⟨j, hj, hlt⟩
      refine ⟨j, hj, ?_⟩
      rw [← hidx, ← hk j (Finset.mem_Icc.mp hj).2]
      exact hlt
    · rintro ⟨j, hj, hlt⟩
      refine ⟨j, hj, ?_⟩
      rw [hidx, hk j (Finset.mem_Icc.mp hj).2]
      exact hlt
  rw [FindPivotLowPoint, FindPivotLowPoint]
  refine if_congr Iff.rfl rfl ?_
  exact if_congr hiff rfl (by rw [hidx])

lemma pivotCenterStep_causal {k1 k2 : Nat → KlineData} {len pp : Nat}
    {st : ℚ × Nat} {i : Nat} (hk : ∀ t, t ≤ i + pp → k1 t = k2 t) :
    pivotCenterStep k1 len pp st i = pivotCenterStep k2 len pp st i := by
  rw [pivotCenterStep, pivotCenterStep, FindPivotHighPoint_causal hk,
    FindPivotLowPoint_causal hk, hk i (by omega)]

lemma pivotState_causal {k1 k2 : Nat → KlineData} {len pp : Nat} {i : Nat}
    (hk : ∀ t, t ≤ i + pp → k1 t = k2 t) :
    pivotState k1 len pp i = pivotState k2 len pp i := by
  induction i with
  | zero =>
      rw [pivotState, pivotState]
      split
      · rfl
      · exact pivotCenterStep_causal hk
  | succ n ih =>
      have hk' : ∀ t, t ≤ n + pp → k1 t = k2 t := fun t ht => hk t (by omega)
      rw [pivotState, pivotState]
      split
      · rfl
      · rw [ih hk', pivotCenterStep_causal hk]

lemma pivotLowerBandAt_causal {k1 k2 : Nat → KlineData} {len pp : Nat} {f : ℚ}
    {ap i : Nat} (hk : ∀ t, t ≤ i + pp → k1 t = k2 t) :
    pivotLowerBandAt k1 len pp f ap i = pivotLowerBandAt k2 len pp f ap i := by
  rw [pivotLowerBandAt, pivotLowerBandAt, pivotState_causal hk,
    atrAt_causal (fun t ht => hk t (by omega))]

lemma pivotUpperBandAt_causal {k1 k2 : Nat → KlineData} {len pp : Nat} {f : ℚ}
    {ap i : Nat} (hk : ∀ t, t ≤ i + pp → k1 t = k2 t) :
    pivotUpperBandAt k1 len pp f ap i = pivotUpperBandAt k2 len pp f ap i := by
  rw [pivotUpperBandAt, pivotUpperBandAt, pivotState_causal hk,
    atrAt_causal (fun t ht => hk t (by omega))]

lemma trendUpAt_causal {k1 k2 : Nat → KlineData} {len pp : Nat} {f : ℚ}
    {ap : Nat} {i : Nat} (hk : ∀ t, t ≤ i + pp → k1 t = k2 t) :
    trendUpAt k1 len pp f ap i = trendUpAt k2 len pp f ap i := by
  induction i with
  | zero =>
      rw [trendUpAt, trendUpAt]
      split
      · rfl
      · exact pivotLowerBandAt_causal hk
  | succ n ih =>
      have hk' : ∀ t, t ≤ n + pp → k1 t = k2 t := fun t ht => hk t (by omega)
      rw [trendUpAt, trendUpAt]
      split
      · rfl
      · rw [ih hk', pivotLowerBandAt_causal hk, hk n (by omega)]

lemma trendDownAt_causal {k1 k2 : Nat → KlineData} {len pp : Nat} {f : ℚ}
    {ap : Nat} {i : Nat} (hk : ∀ t, t ≤ i + pp → k1 t = k2 t) :
    trendDownAt k1 len pp f ap i = trendDownAt k2 len pp f ap i := by
  induction i with
  | zero =>
      rw [trendDownAt, trendDownAt]
      split
      · rfl
      · exact pivotUpperBandAt_causal hk
  | succ n ih =>
      have hk' : ∀ t, t ≤ n + pp → k1 t = k2 t := fun t ht => hk t (by omega)
      rw [trendDownAt, trendDownAt]
      split
      · rfl
      · rw [ih hk', pivotUpperBandAt_causal hk, hk n (by omega)]

lemma pivotTrendAt_causal {k1 k2 : Nat → KlineData} {len pp : Nat} {f : ℚ}
    {ap : Nat} {i : Nat} (hk : ∀ t, t ≤ i + pp → k1 t = k2 t) :
    pivotTrendAt k1 len pp f ap i = pivotTrendAt k2 len pp f ap i := by
  induction i with
  | zero => rfl
  | succ n ih =>
      have hk' : ∀ t, t ≤ n + pp → k1 t = k2 t := fun t ht => hk t (by omega)
      rw [pivotTrendAt, pivotTrendAt]
      split
      · rfl
      · rw [ih hk', trendUpAt_causal hk', trendDownAt_causal hk', hk (n + 1) (by omega)]

/-- C3 counterexample: the claim asserts no-lookahead for both variants.
The pivot variant violates it: `lookA` and `lookB` are identical on
indices `0` and `1` and differ only at index `2`, yet with
`pivotPeriod 1, factor 1, atrPeriod 1` the published lower band at index
`1` is `19/2` on `lookA` (bar `1` is a pivot high, because bar `2` stays
below it) and `9` on `lookB` (bar `2` is higher, destroying the pivot) —
the output at index `1` reads bar `2`. -/
theorem c3_counterexample :
    CalculateSuperTrendPivot lookA 1 1 1 = .ok lookARes ∧
      CalculateSuperTrendPivot lookB 1 1 1 = .ok lookBRes ∧
      lookA.length = lookB.length ∧
      barAt lookA 0 = barAt lookB 0 ∧
      barAt lookA 1 = barAt lookB 1 ∧
      lookARes.lower.getD 1 0 = 19 / 2 ∧
      lookBRes.lower.getD 1 0 = 9 ∧
      ((19 : ℚ) / 2 ≠ 9) := by
  have eA : trendUpAt (barAt lookA) 3 1 1 1 1 = 19 / 2 := by
    have eph : FindPivotHighPoint (barAt lookA) 3 1 1 = some 12 := by
      rw [FindPivotHighPoint]
      rw [if_neg (by norm_num : ¬ ((1 : ℕ) < 1 ∨ (3 : ℕ) ≤ 1 + 1))]
      rw [if_neg]
      · norm_num [barAt, lookA, mkBar]
      · rintro ⟨j, hj, hlt⟩
        obtain ⟨hj1, hj2⟩ := Finset.mem_Icc.mp hj
        interval_cases j <;> norm_num [barAt, lookA, mkBar] at hlt
    have epl : FindPivotLowPoint (barAt lookA) 3 1 1 = none := by
      rw [FindPivotLowPoint]
      rw [if_neg (by norm_num : ¬ ((1 : ℕ) < 1 ∨ (3 : ℕ) ≤ 1 + 1))]
      rw [if_pos]
      exact ⟨0, by rw [Finset.mem_Icc]; omega, by norm_num [barAt, lookA, mkBar]⟩
    have est : pivotState (barAt lookA) 3 1 1 = (12, 1) := by
      show pivotState (barAt lookA) 3 1 (0 + 1) = (12, 1)
      rw [pivotState, if_neg (by omega : ¬ (0 + 1 < 1)),
        show pivotState (barAt lookA) 3 1 0 = (0, 0) from by
          rw [pivotState, if_pos (by omega : (0 : ℕ) < 1)],
        pivotCenterStep, eph, epl]
      norm_num
      simp
    show trendUpAt (barAt lookA) 3 1 1 1 (0 + 1) = 19 / 2
    rw [trendUpAt_step (by omega), trendUpAt_warmup 1 1 (by omega : (0 : ℕ) < 1)]
    rw [if_pos (by norm_num [barAt, lookA, mkBar] : (barAt lookA 0).close > (0 : ℚ))]
    rw [pivotLowerBandAt, est]
    norm_num [atrAt, trueRangeAt, barAt, lookA, mkBar, Finset.sum_range_one]
    rw [abs_of_nonneg (by norm_num : (0 : ℚ) ≤ 5 / 2),
      abs_of_nonneg (by norm_num : (0 : ℚ) ≤ 3 / 2)]
    norm_num [max_def]
  have eB : trendUpAt (barAt lookB) 3 1 1 1 1 = 9 := by
    have eph : FindPivotHighPoint (barAt lookB) 3 1 1 = none := by
      rw [FindPivotHighPoint]
      rw [if_neg (by norm_num : ¬ ((1 : ℕ) < 1 ∨ (3 : ℕ) ≤ 1 + 1))]
      rw [if_pos]
      exact ⟨2, by rw [Finset.mem_Icc]; omega, by norm_num [barAt, lookB, mkBar]⟩
    have epl : FindPivotLowPoint (barAt lookB) 3 1 1 = none := by
      rw [FindPivotLowPoint]
      rw [if_neg (by norm_num : ¬ ((1 : ℕ) < 1 ∨ (3 : ℕ) ≤ 1 + 1))]
      rw [if_pos]
      exact ⟨0, by rw [Finset.mem_Icc]; omega, by norm_num [barAt, lookB, mkBar]⟩
    have est : pivotState (barAt lookB) 3 1 1 = (23 / 2, 0) := by
      show pivotState (barAt lookB) 3 1 (0 + 1) = (23 / 2, 0)
      rw [pivotState, if_neg (by omega : ¬ (0 + 1 < 1)),
        show pivotState (barAt lookB) 3 1 0 = (0, 0) from by
          rw [pivotState, if_pos (by omega : (0 : ℕ) < 1)],
        pivotCenterStep, eph, epl]
      norm_num [barAt, lookB, mkBar]
    show trendUpAt (barAt lookB) 3 1 1 1 (0 + 1) = 9
    rw [trendUpAt_step (by omega), trendUpAt_warmup 1 1 (by omega : (0 : ℕ) < 1)]
    rw [if_pos (by norm_num [barAt, lookB, mkBar] : (barAt lookB 0).close > (0 : ℚ))]
    rw [pivotLowerBandAt, est]
    norm_num [atrAt, trueRangeAt, barAt, lookB, mkBar, Finset.sum_range_one]
    rw [abs_of_nonneg (by norm_num : (0 : ℚ) ≤ 5 / 2),
      abs_of_nonneg (by norm_num : (0 : ℚ) ≤ 3 / 2)]
    norm_num [max_def]
  refine ⟨rfl, rfl, rfl, rfl, rfl, ?_, ?_, by norm_num⟩
  · show ((List.range lookA.length).map (trendUpAt (barAt lookA) lookA.length 1 1 1)).getD 1 0 =
      19 / 2
    rw [getD_range_map _ (by norm_num [lookA])]
    exact eA
  · show ((List.range lookB.length).map (trendUpAt (barAt lookB) lookB.length 1 1 1)).getD 1 0 = 9
    rw [getD_range_map _ (by norm_num [lookB])]
    exact eB

/-- C3 (amended): the HL2 variant is causal — two series of equal length
that agree on indices `[0, i]` yield identical values, direction and
bands at every index `j ≤ i`.  The pivot variant is *not* causal in that
sense (see the counterexample): its pivot detector reads a symmetric
window of radius `pivotPeriod` around the current bar, so its outputs at
`j ≤ i` are only guaranteed equal when the inputs agree on the extended
range `[0, i + pivotPeriod]`. -/
theorem c3_causality {A1 A2 : List KlineData} {p : Nat} {m : ℚ}
    {r1 r2 : TaSuperTrendPivotHl2} {B1 B2 : List KlineData} {pp : Nat} {f : ℚ}
    {ap : Nat} {s1 s2 : TaSuperTrendPivot} {i j : Nat}
    (h1 : CalculateSuperTrendPivotHl2 A1 p m = .ok r1)
    (h2 : CalculateSuperTrendPivotHl2 A2 p m = .ok r2)
    (hlenA : A1.length = A2.length)
    (hagrA : ∀ t, t ≤ i → barAt A1 t = barAt A2 t)
    (g1 : CalculateSuperTrendPivot B1 pp f ap = .ok s1)
    (g2 : CalculateSuperTrendPivot B2 pp f ap = .ok s2)
    (hlenB : B1.length = B2.length)
    (hagrB : ∀ t, t ≤ i + pp → barAt B1 t = barAt B2 t)
    (hj : j ≤ i) (hiA : i < A1.length) (hiB : i < B1.length) :
    (r1.values.getD j 0 = r2.values.getD j 0 ∧
      r1.direction.getD j 0 = r2.direction.getD j 0 ∧
      r1.upperBand.getD j 0 = r2.upperBand.getD j 0 ∧
      r1.lowerBand.getD j 0 = r2.lowerBand.getD j 0) ∧
      (s1.upper.getD j 0 = s2.upper.getD j 0 ∧
        s1.lower.getD j 0 = s2.lower.getD j 0 ∧
        s1.trend.getD j 0 = s2.trend.getD j 0) := by
  obtain ⟨_, hv1, hd1, hu1, hl1⟩ := CalculateSuperTrendPivotHl2_ok h1
  obtain ⟨_, hv2, hd2, hu2, hl2⟩ := CalculateSuperTrendPivotHl2_ok h2
  obtain ⟨_, _, hup1, hlo1, ht1⟩ := CalculateSuperTrendPivot_ok g1
  obtain ⟨_, _, hup2, hlo2, ht2⟩ := CalculateSuperTrendPivot_ok g2
  have hjA1 : j < A1.length := by omega
  have hjA2 : j < A2.length := by omega
  have hjB1 : j < B1.length := by omega
  have hjB2 : j < B2.length := by omega
  have hkA : ∀ t, t ≤ j → barAt A1 t = barAt A2 t :=
    fun t ht => hagrA t (le_trans ht hj)
  have hkB : ∀ t, t ≤ j + pp → barAt B1 t = barAt B2 t :=
    fun t ht => hagrB t (by omega)
  refine ⟨⟨?_, ?_, ?_, ?_⟩, ?_, ?_, ?_⟩
  · rw [hv1, hv2, getD_range_map _ hjA1, getD_range_map _ hjA2]
    exact hl2Value_causal hkA
  · rw [hd1, hd2, getD_range_map _ hjA1, getD_range_map _ hjA2]
    exact hl2Direction_causal hkA
  · rw [hu1, hu2, getD_range_map _ hjA1, getD_range_map _ hjA2]
    exact hl2UpperBand_causal hkA
  · rw [hl1, hl2, getD_range_map _ hjA1, getD_range_map _ hjA2]
    exact hl2LowerBand_causal hkA
  · rw [hup1, hup2, getD_range_map _ hjB1, getD_range_map _ hjB2, hlenB]
    exact trendDownAt_causal hkB
  · rw [hlo1, hlo2, getD_range_map _ hjB1, getD_range_map _ hjB2, hlenB]
    exact trendUpAt_causal hkB
  · rw [ht1, ht2, getD_range_map _ hjB1, getD_range_map _ hjB2, hlenB]
    exact pivotTrendAt_causal hkB

/-- Witness for C3 (amended): `upDemo` and `gapWit` agree at index `0`,
`lookA` and `lookB` agree on `[0, 0 + 1]`; all outputs at index `0`
coincide. -/
theorem c3_causality_witness :
    (upDemoHl2Res.values.getD 0 0 = gapWitHl2Res.values.getD 0 0 ∧
      upDemoHl2Res.direction.getD 0 0 = gapWitHl2Res.direction.getD 0 0 ∧
      upDemoHl2Res.upperBand.getD 0 0 = gapWitHl2Res.upperBand.getD 0 0 ∧
      upDemoHl2Res.lowerBand.getD 0 0 = gapWitHl2Res.lowerBand.getD 0 0) ∧
      (lookARes.upper.getD 0 0 = lookBRes.upper.getD 0 0 ∧
        lookARes.lower.getD 0 0 = lookBRes.lower.getD 0 0 ∧
        lookARes.trend.getD 0 0 = lookBRes.trend.getD 0 0) :=
  @c3_causality upDemo gapWit 1 1 upDemoHl2Res gapWitHl2Res lookA lookB 1 1 1
    lookARes lookBRes 0 0
    rfl rfl rfl
    (by intro t ht
        have ht0 : t = 0 := by omega
        subst ht0
        rfl)
    rfl rfl rfl
    (by intro t ht
        interval_cases t <;> rfl)
    (le_refl 0) (by norm_num [upDemo]) (by norm_num [lookA])
